import Mathlib

/-!
Verification of the executor contract in `parsl/executors/base.py`.

The source file is the abstract base class `ParslExecutor`: it declares
the abstract operations (`start`, `submit`, `scale_out`, `scale_in`,
`shutdown`, `scaling_enabled`) via `ABCMeta`, and gives concrete
property implementations only for `run_dir`, `hub_address` and
`hub_port`.  The concrete properties and the abstract-method set are
embedded directly from the source; the behaviour of concrete executors
(which is not present under the source tree) is modelled from the
specification, as marked on each such definition.
-/

namespace ParslBase

/-- Python exception kinds raised by the embedded code: `AttributeError`
for reading a never-assigned instance attribute, `TypeError` for
instantiating a class with unimplemented abstract methods. -/
inductive PyError where
  | attributeError
  | typeError
deriving DecidableEq, Repr

/-- The instance attributes backing the three concrete properties of
`ParslExecutor`.  `ParslExecutor` has no `__init__`, so each backing
attribute (`_run_dir`, `_hub_address`, `_hub_port`) is absent until its
setter is first called; the outer `Option` models presence of the
attribute, the inner type is the attribute's annotated Python type
(`str`, `Optional[str]`, `Optional[int]`). -/
structure MonitoringState where
  attr_run_dir : Option String
  attr_hub_address : Option (Option String)
  attr_hub_port : Option (Option Int)
deriving DecidableEq, Repr

/-- State of a freshly constructed `ParslExecutor`: no backing attribute
has been assigned yet. -/
def initMonitoringState : MonitoringState :=
  { attr_run_dir := none, attr_hub_address := none, attr_hub_port := none }

/-- Getter `run_dir`: `return self._run_dir`; raises `AttributeError`
when the attribute was never assigned. -/
def run_dir (s : MonitoringState) : Except PyError String :=
  match s.attr_run_dir with
  | some v => .ok v
  | none => .error .attributeError

/-- Setter `run_dir`: `self._run_dir = value`. -/
def set_run_dir (s : MonitoringState) (v : String) : MonitoringState :=
  { s with attr_run_dir := some v }

/-- Getter `hub_address`: `return self._hub_address`. -/
def hub_address (s : MonitoringState) : Except PyError (Option String) :=
  match s.attr_hub_address with
  | some v => .ok v
  | none => .error .attributeError

/-- Setter `hub_address`: `self._hub_address = value`. -/
def set_hub_address (s : MonitoringState) (v : Option String) : MonitoringState :=
  { s with attr_hub_address := some v }

/-- Getter `hub_port`: `return self._hub_port`. -/
def hub_port (s : MonitoringState) : Except PyError (Option Int) :=
  match s.attr_hub_port with
  | some v => .ok v
  | none => .error .attributeError

/-- Setter `hub_port`: `self._hub_port = value`. -/
def set_hub_port (s : MonitoringState) (v : Option Int) : MonitoringState :=
  { s with attr_hub_port := some v }

/-- Modelled from the spec: the lifecycle phases of an executor
(`Created → Started → ShutDown`); the source only documents this state
machine, concrete executors are not under the source tree. -/
inductive ExecPhase where
  | created
  | started
  | shutDown
deriving DecidableEq, Repr

/-- Modelled from the spec: the static configuration of a concrete
executor (`label`, `managed`, the `scaling_enabled` capability flag);
the source only declares these as required member fields. -/
structure ExecutorConfig where
  label : String
  managed : Bool
  scaling_enabled : Bool
deriving DecidableEq, Repr

/-- Modelled from the spec: the future-like handle returned by
`submit`, which must support attaching a `retries_left` integer field
after creation; concrete future types are not under the source tree.
`retries_left = none` models the field not yet having been attached. -/
structure SubmissionFuture where
  futureId : Nat
  retries_left : Option Int
deriving DecidableEq, Repr

/-- Attach or overwrite the `retries_left` field of a submission
future (done by the external retry collaborator). -/
def set_retries_left (f : SubmissionFuture) (v : Int) : SubmissionFuture :=
  { f with retries_left := some v }

/-- Read the `retries_left` field of a submission future. -/
def get_retries_left (f : SubmissionFuture) : Option Int :=
  f.retries_left

/-- Errors raised by the modelled executor operations: calling an
operation in the wrong lifecycle phase, the defined "scaling not
supported" error, and a constructor rejection of an inconsistent
configuration. -/
inductive ExecError where
  | invalidState
  | notSupported
  | invalidConfig
deriving DecidableEq, Repr

/-- Modelled from the spec: the mutable state of a concrete executor —
its immutable configuration, lifecycle phase, provisioned block count,
count of outstanding tasks, a counter for future identities, and the
monitoring attributes inherited from the base class. -/
structure Executor where
  config : ExecutorConfig
  phase : ExecPhase
  blocks : Int
  outstanding : Int
  nextFutureId : Nat
  mon : MonitoringState
deriving DecidableEq, Repr

/-- Modelled from the spec: constructing a concrete executor from a
static configuration.  The constructor rejects a configuration that is
managed but not scaling-enabled (an executor that cannot scale cannot
be runtime-managed); a fresh executor is in phase `created` with zero
blocks, zero outstanding tasks and no monitoring attribute assigned. -/
def mkExecutor (cfg : ExecutorConfig) : Except ExecError Executor :=
  if cfg.managed && !cfg.scaling_enabled then
    .error .invalidConfig
  else
    .ok { config := cfg, phase := .created, blocks := 0, outstanding := 0,
          nextFutureId := 0, mon := initMonitoringState }

/-- Modelled from the spec: `start()` performs backend spin-up; it is
invoked exactly once before any `submit`, so it is only valid in the
`created` phase. -/
def start (e : Executor) : Except ExecError Executor :=
  if e.phase = ExecPhase.created then
    .ok { e with phase := ExecPhase.started }
  else
    .error .invalidState

/-- Modelled from the spec: `submit` schedules one unit of work and
immediately returns a fresh future-like handle that supports the
`retries_left` field; it is only valid after `start()` and before
`shutdown()`, and increments the count of outstanding tasks. -/
def submit (e : Executor) : Except ExecError (Executor × SubmissionFuture) :=
  if e.phase = ExecPhase.started then
    .ok ({ e with outstanding := e.outstanding + 1,
                  nextFutureId := e.nextFutureId + 1 },
         { futureId := e.nextFutureId, retries_left := none })
  else
    .error .invalidState

/-- Modelled from the spec: `scale_out(blocks)` requests additional
capacity.  On a non-elastic executor (`scaling_enabled` false) it
raises the defined "scaling not supported" error; otherwise it adds
`n` blocks. -/
def scale_out (e : Executor) (n : Nat) : Except ExecError Executor :=
  if e.config.scaling_enabled then
    .ok { e with blocks := e.blocks + n }
  else
    .error .notSupported

/-- Modelled from the spec: `scale_in(blocks)` requests removal of
capacity.  On a non-elastic executor it raises the defined "scaling not
supported" error; otherwise it removes `n` blocks, clamping so that it
never removes more blocks than are currently provisioned. -/
def scale_in (e : Executor) (n : Nat) : Except ExecError Executor :=
  if e.config.scaling_enabled then
    .ok { e with blocks := max (e.blocks - n) 0 }
  else
    .error .notSupported

/-- Modelled from the spec: `shutdown()` releases all resources and
returns a success boolean rather than raising; calling it when already
shut down performs no teardown and reports success for an executor
that is already shut down. -/
def shutdown (e : Executor) : Executor × Bool :=
  if e.phase = ExecPhase.shutDown then
    (e, true)
  else
    ({ e with phase := ExecPhase.shutDown, blocks := 0, outstanding := 0 }, true)

/-- The operations that can be applied to an executor after
construction, used to quantify over every reachable state. -/
inductive ExecOp where
  | opStart
  | opSubmit
  | opScaleOut (n : Nat)
  | opScaleIn (n : Nat)
  | opShutdown
  | opSetRunDir (v : String)
  | opSetHubAddress (v : Option String)
  | opSetHubPort (v : Option Int)
deriving Repr

/-- Apply one operation to an executor; an operation that raises
leaves the state unchanged. -/
def applyOp (e : Executor) : ExecOp → Executor
  | .opStart => match start e with | .ok e2 => e2 | .error _ => e
  | .opSubmit => match submit e with | .ok (e2, _) => e2 | .error _ => e
  | .opScaleOut n => match scale_out e n with | .ok e2 => e2 | .error _ => e
  | .opScaleIn n => match scale_in e n with | .ok e2 => e2 | .error _ => e
  | .opShutdown => (shutdown e).1
  | .opSetRunDir v => { e with mon := set_run_dir e.mon v }
  | .opSetHubAddress v => { e with mon := set_hub_address e.mon v }
  | .opSetHubPort v => { e with mon := set_hub_port e.mon v }

/-- Apply a sequence of operations left to right. -/
def runOps (e : Executor) (ops : List ExecOp) : Executor :=
  ops.foldl applyOp e

/-- Errors raised when registering an executor with the runtime's
label registry. -/
inductive RegError where
  | emptyLabel
  | duplicateLabel
deriving DecidableEq, Repr

/-- Modelled from the spec: the runtime registry of executor labels.
Constructing an executor within a runtime registers its label; an
empty label or a label equal to that of an already-active executor is
rejected.  The registry enforcement itself is not under the source
tree (the source only documents the uniqueness requirement). -/
def registerExecutor (labels : List String) (l : String) :
    Except RegError (List String) :=
  if l = "" then .error .emptyLabel
  else if l ∈ labels then .error .duplicateLabel
  else .ok (l :: labels)

/-- The invariant of the label registry: all registered labels are
pairwise distinct and non-empty. -/
def registryInvariant (labels : List String) : Prop :=
  labels.Nodup ∧ ∀ l ∈ labels, l ≠ ""

/-- The abstract members declared on `ParslExecutor` with
`@abstractmethod` / `@abstractproperty`, in source order. -/
def parslExecutorAbstractMethods : List String :=
  ["start", "submit", "scale_out", "scale_in", "shutdown", "scaling_enabled"]

/-- The abstract methods of `ParslExecutor` left unimplemented by a
subclass that concretely implements the methods named in
`implemented`. -/
def remainingAbstracts (implemented : List String) : List String :=
  parslExecutorAbstractMethods.filter (fun m => !implemented.contains m)

/-- Instantiating a (subclass of) `ParslExecutor` under `ABCMeta`
semantics: instantiation raises `TypeError` unless every abstract
method has a concrete implementation.  `implemented` lists the methods
the subclass concretely implements; `ParslExecutor` itself corresponds
to `implemented = []`. -/
def instantiateSubclass (implemented : List String) : Except PyError Unit :=
  if remainingAbstracts implemented = [] then .ok () else .error .typeError

/-- `submit` followed by attaching `retries_left := v` to the returned
future and reading it back, written as one composed operation so the
round-trip can be stated without an existential over the future. -/
def submit_then_set_retries (e : Executor) (v : Int) :
    Except ExecError (Option Int) :=
  Except.map (fun p => get_retries_left (set_retries_left p.2 v)) (submit e)

/-- `scale_out n` followed by `scale_in n`, as one composed fallible
operation. -/
def scaleRound (e : Executor) (n : Nat) : Except ExecError Executor :=
  (scale_out e n).bind (fun e1 => scale_in e1 n)

/-- A sample started executor used to instantiate theorems at concrete
inputs. -/
def sampleStarted : Executor :=
  { config := { label := "ex", managed := true, scaling_enabled := true },
    phase := .started, blocks := 2, outstanding := 0, nextFutureId := 0,
    mon := initMonitoringState }

/-- A sample configuration of a fixed-capacity (non-scaling, unmanaged)
executor. -/
def sampleCfgNoScale : ExecutorConfig :=
  { label := "ns", managed := false, scaling_enabled := false }

/-- A sample freshly constructed fixed-capacity executor. -/
def sampleNoScaleExec : Executor :=
  { config := sampleCfgNoScale, phase := .created, blocks := 0,
    outstanding := 0, nextFutureId := 0, mon := initMonitoringState }

/-- No operation changes an executor's immutable configuration. -/
theorem applyOp_config (e : Executor) (op : ExecOp) :
    (applyOp e op).config = e.config := by
  cases op with
  | opStart =>
      by_cases h : e.phase = ExecPhase.created <;> simp [applyOp, start, h]
  | opSubmit =>
      by_cases h : e.phase = ExecPhase.started <;> simp [applyOp, submit, h]
  | opScaleOut n =>
      by_cases h : e.config.scaling_enabled = true <;>
        simp [applyOp, scale_out, h]
  | opScaleIn n =>
      by_cases h : e.config.scaling_enabled = true <;>
        simp [applyOp, scale_in, h]
  | opShutdown =>
      by_cases h : e.phase = ExecPhase.shutDown <;> simp [applyOp, shutdown, h]
  | opSetRunDir v => rfl
  | opSetHubAddress v => rfl
  | opSetHubPort v => rfl

/-- No operation sequence changes an executor's immutable
configuration. -/
theorem runOps_config (e : Executor) (ops : List ExecOp) :
    (runOps e ops).config = e.config := by
  induction ops generalizing e with
  | nil => rfl
  | cons op rest ih =>
      simp only [runOps, List.foldl_cons] at *
      rw [ih, applyOp_config]

/-- C1: on an executor on which `start()` has been called (phase
`started`), `submit()` succeeds and returns a future on which assigning
any integer `v` to `retries_left` and reading it back yields `v`. -/
theorem submit_retries_left_roundtrip (e : Executor)
    (h : e.phase = ExecPhase.started) (v : Int) :
    submit_then_set_retries e v = .ok (some v) := by
  simp [submit_then_set_retries, submit, h, get_retries_left,
    set_retries_left, Except.map]

/-- Witness for C1 at a concrete started executor and `v = 7`. -/
theorem submit_retries_left_roundtrip_witness :
    submit_then_set_retries sampleStarted 7 = .ok (some 7) :=
  submit_retries_left_roundtrip sampleStarted rfl 7

/-- C2: `shutdown()` returns a boolean rather than raising (it is a
total function into `Executor × Bool`); the first call leaves the
executor in the `shutDown` phase, and a second call performs no
teardown (the state is unchanged) and reports success for an executor
that is already shut down. -/
theorem shutdown_idempotent (e : Executor) :
    (shutdown e).2 = true ∧
    ((shutdown e).1).phase = ExecPhase.shutDown ∧
    shutdown ((shutdown e).1) = ((shutdown e).1, true) := by
  by_cases h : e.phase = ExecPhase.shutDown <;> simp [shutdown, h]

/-- C3: on an executor whose `scaling_enabled` capability is false,
`scale_out` and `scale_in` raise the defined "scaling not supported"
error, and the block count is unchanged — there is no partial capacity
change. -/
theorem scaling_disabled_not_supported (e : Executor) (n : Nat)
    (h : e.config.scaling_enabled = false) :
    scale_out e n = .error .notSupported ∧
    scale_in e n = .error .notSupported ∧
    (applyOp e (ExecOp.opScaleOut n)).blocks = e.blocks ∧
    (applyOp e (ExecOp.opScaleIn n)).blocks = e.blocks := by
  simp [scale_out, scale_in, applyOp, h]

/-- Witness for C3 at a concrete non-scaling executor and `n = 4`. -/
theorem scaling_disabled_not_supported_witness :
    scale_out sampleNoScaleExec 4 = .error .notSupported ∧
    scale_in sampleNoScaleExec 4 = .error .notSupported ∧
    (applyOp sampleNoScaleExec (ExecOp.opScaleOut 4)).blocks =
      sampleNoScaleExec.blocks ∧
    (applyOp sampleNoScaleExec (ExecOp.opScaleIn 4)).blocks =
      sampleNoScaleExec.blocks :=
  scaling_disabled_not_supported sampleNoScaleExec 4 rfl

/-- C4: on a managed, scaling-enabled executor with no pending tasks
(and a non-negative block count, which holds in every reachable
state), `scale_out(n)` followed by `scale_in(n)` succeeds and returns
the block count to its original value. -/
theorem scale_out_in_restores_blocks (e : Executor) (n : Nat)
    (hm : e.config.managed = true) (hs : e.config.scaling_enabled = true)
    (hout : e.outstanding = 0) (hb : 0 ≤ e.blocks) :
    Except.map Executor.blocks (scaleRound e n) = .ok e.blocks := by
  simp only [scaleRound, scale_out, scale_in, hs, if_true, Except.bind,
    Except.map]
  congr 1
  omega

/-- Witness for C4 at a concrete managed executor with 2 blocks and
`n = 3`. -/
theorem scale_out_in_restores_blocks_witness :
    Except.map Executor.blocks (scaleRound sampleStarted 3) =
      .ok sampleStarted.blocks :=
  scale_out_in_restores_blocks sampleStarted 3 rfl rfl rfl (by decide)

/-- C5: setting `run_dir`, `hub_address` or `hub_port` in any state
(at any time after construction, including after `start()`) and
reading the same field back yields exactly the value that was set. -/
theorem monitoring_set_get_roundtrip (s : MonitoringState) (v1 : String)
    (v2 : Option String) (v3 : Option Int) :
    run_dir (set_run_dir s v1) = .ok v1 ∧
    hub_address (set_hub_address s v2) = .ok v2 ∧
    hub_port (set_hub_port s v3) = .ok v3 :=
  ⟨rfl, rfl, rfl⟩

/-- C6: registering an executor label keeps the runtime registry's
labels non-empty and pairwise distinct; an empty label is rejected,
and a label equal to that of an already-registered executor is
rejected with the duplicate-label error. -/
theorem label_registry_correct (labels labels2 : List String) (l : String) :
    (registryInvariant labels → registerExecutor labels l = .ok labels2 →
       registryInvariant labels2 ∧ l ≠ "") ∧
    (registerExecutor labels "" = .error .emptyLabel) ∧
    (l ∈ labels → l ≠ "" →
       registerExecutor labels l = .error .duplicateLabel) := by
  refine ⟨?_, by simp [registerExecutor], ?_⟩
  · intro hinv hok
    by_cases he : l = ""
    · simp [registerExecutor, he] at hok
    · by_cases hd : l ∈ labels
      · simp [registerExecutor, he, hd] at hok
      · simp only [registerExecutor, he, if_false, hd] at hok
        have h2 : l :: labels = labels2 := by injection hok
        subst h2
        obtain ⟨hnd, hne⟩ := hinv
        refine ⟨⟨List.Nodup.cons hd hnd, ?_⟩, he⟩
        intro x hx
        rcases List.mem_cons.mp hx with h1 | h2
        · rw [h1]; exact he
        · exact hne x h2
  · intro hmem hne
    simp [registerExecutor, hne, hmem]

/-- Witness for C6: a successful registration preserves the invariant,
and empty or duplicate labels are rejected, at concrete inputs. -/
theorem label_registry_correct_witness :
    (registryInvariant ["a", "b"] ∧ "a" ≠ "") ∧
    registerExecutor ["b"] "" = .error .emptyLabel ∧
    registerExecutor ["b"] "b" = .error .duplicateLabel := by
  refine ⟨(label_registry_correct ["b"] ["a", "b"] "a").1 ?_ rfl,
    ((label_registry_correct ["b"] ["a", "b"] "a").2).1,
    ((label_registry_correct ["b"] ["a", "b"] "b").2).2 (by decide) (by decide)⟩
  constructor
  · decide
  · decide

/-- C7: on a scaling-enabled executor with a non-negative block count,
`scale_in(n)` succeeds, the resulting block count stays non-negative
and does not exceed the old one, and the number of blocks removed is
exactly the smaller of `n` and the currently provisioned count — never
more than provisioned. -/
theorem scale_in_never_overdraws (e e2 : Executor) (n : Nat)
    (hs : scale_in e n = .ok e2) (hb : 0 ≤ e.blocks) :
    0 ≤ e2.blocks ∧ e2.blocks ≤ e.blocks ∧
    e.blocks - e2.blocks = min (n : Int) e.blocks := by
  by_cases h : e.config.scaling_enabled = true
  · simp only [scale_in, h, if_true, Except.ok.injEq] at hs
    have hblocks : e2.blocks = max (e.blocks - n) 0 := by
      rw [← hs]
    rw [hblocks]
    omega
  · simp [scale_in, h] at hs

/-- Witness for C7: scaling in 5 blocks on an executor holding 2
removes exactly 2, at concrete inputs. -/
theorem scale_in_never_overdraws_witness :
    0 ≤ ({ sampleStarted with blocks := 0 } : Executor).blocks ∧
    ({ sampleStarted with blocks := 0 } : Executor).blocks ≤
      sampleStarted.blocks ∧
    sampleStarted.blocks - ({ sampleStarted with blocks := 0 } : Executor).blocks =
      min (5 : Int) sampleStarted.blocks :=
  scale_in_never_overdraws sampleStarted { sampleStarted with blocks := 0 } 5
    rfl (by decide)

/-- C8: every executor accepted by the constructor satisfies, in every
state reachable by any sequence of operations, that a false
`scaling_enabled` capability implies a false `managed` flag. -/
theorem scaling_disabled_implies_unmanaged (cfg : ExecutorConfig)
    (e : Executor) (h : mkExecutor cfg = .ok e) (ops : List ExecOp)
    (hs : (runOps e ops).config.scaling_enabled = false) :
    (runOps e ops).config.managed = false := by
  rw [runOps_config] at hs ⊢
  unfold mkExecutor at h
  split at h
  · simp at h
  · next hcond =>
      have h2 :
          ({ config := cfg, phase := ExecPhase.created, blocks := 0,
             outstanding := 0, nextFutureId := 0,
             mon := initMonitoringState } : Executor) = e := by
        injection h
      have hcfg : e.config = cfg := by rw [← h2]
      rw [hcfg] at hs ⊢
      cases hm : cfg.managed with
      | false => rfl
      | true =>
          exact absurd (by rw [hm, hs]; rfl) hcond

/-- Witness for C8 at a concrete non-scaling configuration and a
one-operation sequence. -/
theorem scaling_disabled_implies_unmanaged_witness :
    (runOps sampleNoScaleExec [ExecOp.opStart]).config.managed = false :=
  scaling_disabled_implies_unmanaged sampleCfgNoScale sampleNoScaleExec
    rfl [ExecOp.opStart] rfl

/-- C9: on a freshly constructed executor inheriting the base class's
property implementations, reading `run_dir`, `hub_address` or
`hub_port` before the corresponding setter has ever been called raises
`AttributeError` rather than returning a default. -/
theorem unset_monitoring_attributes_raise :
    run_dir initMonitoringState = .error .attributeError ∧
    hub_address initMonitoringState = .error .attributeError ∧
    hub_port initMonitoringState = .error .attributeError :=
  ⟨rfl, rfl, rfl⟩

/-- C10: instantiating `ParslExecutor` itself raises `TypeError`, and
so does instantiating any subclass that leaves at least one of the six
abstract members without a concrete implementation. -/
theorem abstract_instantiation_raises (implemented : List String)
    (m : String) (hm : m ∈ parslExecutorAbstractMethods)
    (hni : m ∉ implemented) :
    instantiateSubclass [] = .error .typeError ∧
    instantiateSubclass implemented = .error .typeError := by
  refine ⟨rfl, ?_⟩
  have hmem : m ∈ remainingAbstracts implemented := by
    simp only [remainingAbstracts, List.mem_filter, Bool.not_eq_true]
    exact ⟨hm, by simpa using hni⟩
  have hne : remainingAbstracts implemented ≠ [] := by
    intro hnil
    rw [hnil] at hmem
    exact List.not_mem_nil m hmem
  simp [instantiateSubclass, hne]

/-- Witness for C10: a subclass implementing only `start` cannot be
instantiated (`submit` remains abstract), at concrete inputs. -/
theorem abstract_instantiation_raises_witness :
    instantiateSubclass [] = .error PyError.typeError ∧
    instantiateSubclass ["start"] = .error PyError.typeError :=
  abstract_instantiation_raises ["start"] "submit" (by decide) (by decide)

end ParslBase
